/-
  Verification development for the archetype vector-drawing engine.

  Shallow embedding of the geometry primitives (src/geometry.rs), the cubic
  Bezier curve module (src/bezier/mod.rs), the curve fitter (src/bezier/fit.rs),
  the rasterizer (src/drawing.rs) and the scanline polygon fill
  (src/polygon.rs).

  Conventions used throughout:
  * `f32` values are embedded as real numbers `ℝ`; the scanline-fill pipeline
    uses only field operations, so it is embedded over `ℚ` to keep it
    decidable.
  * A Rust computation that panics (out-of-bounds slice index, `usize`
    underflow, failed `unwrap`) is embedded as an `Option` returning `none`.
  * `f32::sqrt` of a negative argument yields NaN; where that matters
    (`Point::distance_to`) the square root is embedded as an `Option ℝ`
    (`none` = NaN).  Square roots whose argument is provably nonnegative
    (sums of squares) are embedded directly with `Real.sqrt`.
-/
import Mathlib

namespace Archetype

/-- A 2-D point / vector (pathfinder `Vector2F`, coordinates are `f32`). -/
abbrev Pt := ℝ × ℝ

/-- Componentwise vector addition (`Vector2F + Vector2F`). -/
def padd (a b : Pt) : Pt := (a.1 + b.1, a.2 + b.2)

/-- Componentwise vector subtraction (`Vector2F - Vector2F`). -/
def psub (a b : Pt) : Pt := (a.1 - b.1, a.2 - b.2)

/-- Scalar multiplication (`Vector2F * f32`). -/
def pscale (a : Pt) (s : ℝ) : Pt := (a.1 * s, a.2 * s)

/-- Dot product (`Vector2F::dot`). -/
def pdot (a b : Pt) : ℝ := a.1 * b.1 + a.2 * b.2

/-- 2-D cross product scalar (`Point::cross_product` in src/geometry.rs). -/
def pcross (a b : Pt) : ℝ := a.1 * b.2 - a.2 * b.1

/-- `Vector2F::square_length`. -/
def square_length (a : Pt) : ℝ := pdot a a

/-- pathfinder `Vector2F::normalize`: scale by the reciprocal of the length
(external dependency of src/bezier/fit.rs; `v * (1 / sqrt (x^2 + y^2))`). -/
noncomputable def normalize (v : Pt) : Pt :=
  pscale v (1 / Real.sqrt (v.1 ^ 2 + v.2 ^ 2))

/-- A cubic Bezier curve: exactly four control points
(`BezierCurve { points: [Vector2F; 4] }`, src/bezier/mod.rs). -/
structure BezierCurve where
  p0 : Pt
  p1 : Pt
  p2 : Pt
  p3 : Pt

/-- de Casteljau step for lines (`de_casteljau2`, src/bezier/mod.rs line 201). -/
def de_casteljau2 (t : ℝ) (w1 w2 : Pt) : Pt :=
  padd (pscale w1 (1 - t)) (pscale w2 t)

/-- de Casteljau for quadratics (`de_casteljau3`, src/bezier/mod.rs line 190). -/
def de_casteljau3 (t : ℝ) (w1 w2 w3 : Pt) : Pt :=
  de_casteljau2 t (padd (pscale w1 (1 - t)) (pscale w2 t))
    (padd (pscale w2 (1 - t)) (pscale w3 t))

/-- de Casteljau for cubics (`de_casteljau4`, src/bezier/mod.rs line 178). -/
def de_casteljau4 (t : ℝ) (w1 w2 w3 w4 : Pt) : Pt :=
  de_casteljau3 t (padd (pscale w1 (1 - t)) (pscale w2 t))
    (padd (pscale w2 (1 - t)) (pscale w3 t))
    (padd (pscale w3 (1 - t)) (pscale w4 t))

/-- `BezierCurve::eval` (src/bezier/mod.rs line 88): de Casteljau evaluation
of the four control points. -/
def BezierCurve.eval (c : BezierCurve) (t : ℝ) : Pt :=
  de_casteljau4 t c.p0 c.p1 c.p2 c.p3

/-- Euclidean distance (`distance`, src/bezier/mod.rs line 206). -/
noncomputable def distance (v1 v2 : Pt) : ℝ :=
  Real.sqrt ((v1.1 - v2.1) ^ 2 + (v1.2 - v2.2) ^ 2)

/-- Saturation of an integer to the `i32` range, as performed by Rust
`as i32` casts from floating point. -/
def i32_saturate (z : ℤ) : ℤ := max (-(2 ^ 31)) (min (2 ^ 31 - 1) z)

/-- Rust `f32 as i32`: truncation toward zero, saturating at the `i32`
bounds. -/
noncomputable def f32_as_i32 (x : ℝ) : ℤ :=
  i32_saturate (if 0 ≤ x then ⌊x⌋ else ⌈x⌉)

/-- The estimated arc-length bound of `BezierCurve::edges`
(src/bezier/mod.rs lines 113-114): sum of the three control-polygon edge
lengths. -/
noncomputable def curve_length_bound (c : BezierCurve) : ℝ :=
  distance c.p0 c.p1 + distance c.p1 c.p2 + distance c.p2 c.p3

/-- `num_segments` of `BezierCurve::edges` (src/bezier/mod.rs line 117):
`((clb2 + 800.0).sqrt() / 8.0) as i32`. -/
noncomputable def num_segments (c : BezierCurve) : ℤ :=
  f32_as_i32 (Real.sqrt (curve_length_bound c ^ 2 + 800) / 8)

/-- `t_interval` of `BezierCurve::edges` (src/bezier/mod.rs line 118). -/
noncomputable def t_interval (c : BezierCurve) : ℝ :=
  1 / (num_segments c : ℝ)

/-- The sequence of line segments produced by the `Edges` iterator
(src/bezier/mod.rs lines 144-170): the i-th item joins the evaluation at the
previous parameter `i * t_interval` to the one at `(i+1) * t_interval`. -/
noncomputable def edgesList (c : BezierCurve) : List (Pt × Pt) :=
  (List.range (num_segments c).toNat).map fun (i : ℕ) =>
    (c.eval ((i : ℝ) * t_interval c), c.eval (((i : ℝ) + 1) * t_interval c))

/-- `f32::sqrt` with NaN modelled as `none`: negative arguments produce NaN. -/
noncomputable def fsqrt (x : ℝ) : Option ℝ :=
  if x < 0 then none else some (Real.sqrt x)

/-- `Point::distance_to` (src/geometry.rs lines 38-46): note the squared
y-difference is SUBTRACTED from the squared x-difference before the square
root (`.pow(2).sub(...)`), exactly as in the source. -/
noncomputable def distance_to (a b : Pt) : Option ℝ :=
  fsqrt ((a.1 - b.1) ^ 2 - (a.2 - b.2) ^ 2)

/-- A line segment as a (from, to) pair of points. -/
abbrev Seg := Pt × Pt

/-- `Line::length` (src/geometry.rs lines 248-254):
`self.to().distance_to(&self.from())`. -/
noncomputable def line_length (l : Seg) : Option ℝ :=
  distance_to l.2 l.1

/-- Sum of the x-coordinates of a point list (the `x` component of the
parallel reduction in `Line::fit_to_points`, src/geometry.rs lines 211-217). -/
def sum_x (points : List Pt) : ℝ := (points.map (fun p => p.1)).sum

/-- Sum of the y-coordinates (`Line::fit_to_points`). -/
def sum_y (points : List Pt) : ℝ := (points.map (fun p => p.2)).sum

/-- Sum of the products x*y (`Line::fit_to_points`). -/
def sum_xy (points : List Pt) : ℝ := (points.map (fun p => p.1 * p.2)).sum

/-- Sum of the squares x*x (`Line::fit_to_points`). -/
def sum_x2 (points : List Pt) : ℝ := (points.map (fun p => p.1 * p.1)).sum

/-- The denominator of the least-squares slope in `Line::fit_to_points`
(src/geometry.rs line 221): `(n * x2) - (x * x)`.  The source divides by this
expression with no guard. -/
def fit_slope_denom (points : List Pt) : ℝ :=
  (points.length : ℝ) * sum_x2 points - sum_x points * sum_x points

/-- `Line::fit_to_points` (src/geometry.rs lines 194-246).  `assert!(len != 0)`
is embedded as `none` on the empty list.  `m` and `c` are the least-squares
slope and intercept; the result line runs from the x solved for the smallest y
to the x solved for the largest y. -/
noncomputable def fit_to_points (points : List Pt) : Option Seg :=
  match points with
  | [] => none
  | p :: ps =>
    let pts := p :: ps
    let n : ℝ := (pts.length : ℝ)
    let m := (n * sum_xy pts - sum_x pts * sum_y pts) / fit_slope_denom pts
    let c := (sum_y pts - m * sum_x pts) / n
    let ys := pts.map (fun q => q.2)
    let min_y := ys.foldl min p.2
    let max_y := ys.foldl max p.2
    let min_x := (min_y - c) / m
    let max_x := (max_y - c) / m
    some ((min_x, min_y), (max_x, max_y))

/-! ## Curve fitter (src/bezier/fit.rs) -/

/-- Checked `usize` subtraction: Rust `a - b` on `usize` panics when `b > a`. -/
def csub (a b : ℕ) : Option ℕ := if b ≤ a then some (a - b) else none

/-- Euclidean distance between two vectors (`distance`, src/bezier/fit.rs
lines 273-278). -/
noncomputable def fit_distance (p1 p2 : Pt) : ℝ :=
  Real.sqrt ((p2.1 - p1.1) ^ 2 + (p2.2 - p1.2) ^ 2)

/-- Bezier multiplier `b0` (src/bezier/fit.rs line 282): `a*a*a` with
`a = 1 - u`. -/
def b0 (u : ℝ) : ℝ := (1 - u) * (1 - u) * (1 - u)

/-- Bezier multiplier `b1` (src/bezier/fit.rs line 288): `3.0 * a * (u * u)`. -/
def b1 (u : ℝ) : ℝ := 3 * (1 - u) * (u * u)

/-- Bezier multiplier `b2` (src/bezier/fit.rs line 294): `3.0 * u * u * a`.
(Note: algebraically identical to `b1`, as in the source.) -/
def b2 (u : ℝ) : ℝ := 3 * u * u * (1 - u)

/-- Bezier multiplier `b3` (src/bezier/fit.rs line 300). -/
def b3 (u : ℝ) : ℝ := u * u * u

/-- The first `rhs` vector of `generate_bezier`: `lt * b1(u)`. -/
def b1v (lt : Pt) (u : ℝ) : Pt := pscale lt (b1 u)

/-- The second `rhs` vector of `generate_bezier`: `rt * b2(u)`. -/
def b2v (rt : Pt) (u : ℝ) : Pt := pscale rt (b2 u)

/-- Entry (0,0) of the normal-equations matrix `c_mtrx` of `generate_bezier`
(src/bezier/fit.rs lines 96-108): `Σ rhs[0]·rhs[0]`. -/
def c00 (u : List ℝ) (lt : Pt) : ℝ :=
  (u.map fun x => pdot (b1v lt x) (b1v lt x)).sum

/-- Entry (0,1) (= entry (1,0)) of `c_mtrx`: `Σ rhs[0]·rhs[1]`. -/
def c01 (u : List ℝ) (lt rt : Pt) : ℝ :=
  (u.map fun x => pdot (b1v lt x) (b2v rt x)).sum

/-- Entry (1,1) of `c_mtrx`: `Σ rhs[1]·rhs[1]`. -/
def c11 (u : List ℝ) (rt : Pt) : ℝ :=
  (u.map fun x => pdot (b2v rt x) (b2v rt x)).sum

/-- The `tmp` vector of the `x_mtrx` fold in `generate_bezier`
(src/bezier/fit.rs lines 117-121):
`points[i] - (points[0]*b0(u) + points[0]*b1(u) + points[li]*b2(u) + points[li]*b3(u))`. -/
def gb_tmp (p0 pl : Pt) (u : ℝ) (p : Pt) : Pt :=
  psub p (padd (padd (pscale p0 (b0 u)) (pscale p0 (b1 u)))
    (padd (pscale pl (b2 u)) (pscale pl (b3 u))))

/-- Entry 0 of `x_mtrx`: `Σ rhs[0]·tmp` over the parameter/point pairs. -/
def x0 (points : List Pt) (u : List ℝ) (lt : Pt) (p0 pl : Pt) : ℝ :=
  ((u.zip points).map fun q => pdot (b1v lt q.1) (gb_tmp p0 pl q.1 q.2)).sum

/-- Entry 1 of `x_mtrx`: `Σ rhs[1]·tmp`. -/
def x1 (points : List Pt) (u : List ℝ) (rt : Pt) (p0 pl : Pt) : ℝ :=
  ((u.zip points).map fun q => pdot (b2v rt q.1) (gb_tmp p0 pl q.1 q.2)).sum

/-- `det_c0_c1` before the zero-replacement (src/bezier/fit.rs line 131):
the determinant of `c_mtrx` (with `c[1][0] = c[0][1]`). -/
def det_c0_c1 (u : List ℝ) (lt rt : Pt) : ℝ :=
  c00 u lt * c11 u rt - c01 u lt rt * c01 u lt rt

/-- `det_c0_x` (src/bezier/fit.rs line 132). -/
def det_c0_x (points : List Pt) (u : List ℝ) (lt rt : Pt) (p0 pl : Pt) : ℝ :=
  c00 u lt * x1 points u rt p0 pl - c01 u lt rt * x0 points u lt p0 pl

/-- `det_x_c1` (src/bezier/fit.rs line 133). -/
def det_x_c1 (points : List Pt) (u : List ℝ) (lt rt : Pt) (p0 pl : Pt) : ℝ :=
  x0 points u lt p0 pl * c11 u rt - x1 points u rt p0 pl * c01 u lt rt

/-- The determinant after the divide-by-zero guard (src/bezier/fit.rs lines
135-138): if it is exactly zero it is replaced by
`(c[0][0] * c[1][1]) * EPSILON` with `EPSILON = 10e-12`. -/
noncomputable def gb_det (u : List ℝ) (lt rt : Pt) : ℝ :=
  if det_c0_c1 u lt rt = 0 then (c00 u lt * c11 u rt) * (10e-12 : ℝ)
  else det_c0_c1 u lt rt

/-- An `f32` value that may be non-finite: an ordinary (finite) value, one of
the two infinities, or NaN.  Used where the source can produce a non-finite
quotient (the alpha values of `generate_bezier`). -/
inductive FVal where
  | fin (x : ℝ)
  | posInf
  | negInf
  | nan

/-- `f32` division `x / y`: an ordinary quotient for `y ≠ 0`; for `y = 0` the
IEEE rules give `NaN` when `x = 0` and a signed infinity otherwise. -/
noncomputable def fdiv (x y : ℝ) : FVal :=
  if y = 0 then
    if x = 0 then FVal.nan else if 0 < x then FVal.posInf else FVal.negInf
  else FVal.fin (x / y)

/-- `f32` comparison `a < t` against a finite threshold `t`: any comparison
with NaN is false, `+inf < t` is false, `-inf < t` is true. -/
def flt (a : FVal) (t : ℝ) : Prop :=
  match a with
  | FVal.fin x => x < t
  | FVal.posInf => False
  | FVal.negInf => True
  | FVal.nan => False

/-- `alpha_l` (src/bezier/fit.rs line 141): `det_x_c1 / det_c0_c1` after the
zero-replacement, under `f32` division semantics (`0.0 / 0.0` is NaN). -/
noncomputable def alpha_l (points : List Pt) (u : List ℝ) (lt rt : Pt)
    (p0 pl : Pt) : FVal :=
  fdiv (det_x_c1 points u lt rt p0 pl) (gb_det u lt rt)

/-- `alpha_r` (src/bezier/fit.rs line 142), with the same `f32` division
semantics. -/
noncomputable def alpha_r (points : List Pt) (u : List ℝ) (lt rt : Pt)
    (p0 pl : Pt) : FVal :=
  fdiv (det_c0_x points u lt rt p0 pl) (gb_det u lt rt)

/-- The Wu/Barsky fallback curve of `generate_bezier` (src/bezier/fit.rs
lines 145-152): both handles at one third of the endpoint distance along the
tangents. -/
noncomputable def wu_barsky (p0 pl lt rt : Pt) : BezierCurve :=
  ⟨p0, padd p0 (pscale lt (fit_distance p0 pl / 3)),
    padd pl (pscale rt (fit_distance p0 pl / 3)), pl⟩

/-- The result of `generate_bezier`: either a curve with ordinary (finite)
coordinates, or the curve built by the non-fallback branch from at least one
non-finite alpha — its handles `points[0] + lt * alpha_l` and
`points[li] + rt * alpha_r` then have NaN/infinite coordinates, which `Pt`
(a pair of reals) cannot represent, so the constructor records the endpoint
points, the tangents and the two alpha values instead. -/
inductive GenResult where
  | ok (c : BezierCurve)
  | nonFinite (p0 pl lt rt : Pt) (al ar : FVal)

open Classical in
/-- `generate_bezier` (src/bezier/fit.rs lines 75-161).  Indexing
`points[points.len() - 1]` underflows on an empty slice, hence `none` there.
The branch test `alpha_l < 10e-6 || alpha_r < 10e-6` uses `f32` comparison
semantics (`flt`, decided classically): a NaN or `+inf` alpha does NOT
trigger the Wu/Barsky fallback, and the non-fallback branch constructs a curve with
non-finite handles (`GenResult.nonFinite`). -/
noncomputable def generate_bezier (points : List Pt) (u : List ℝ)
    (lt rt : Pt) : Option GenResult :=
  match points with
  | [] => none
  | p0 :: rest =>
    let pts := p0 :: rest
    let pl := pts.getLast (List.cons_ne_nil _ _)
    if flt (alpha_l pts u lt rt p0 pl) (10e-6 : ℝ) ∨
        flt (alpha_r pts u lt rt p0 pl) (10e-6 : ℝ) then
      some (GenResult.ok (wu_barsky p0 pl lt rt))
    else
      match alpha_l pts u lt rt p0 pl, alpha_r pts u lt rt p0 pl with
      | FVal.fin al, FVal.fin ar =>
        some (GenResult.ok ⟨p0, padd p0 (pscale lt al),
          padd pl (pscale rt ar), pl⟩)
      | al, ar => some (GenResult.nonFinite p0 pl lt rt al ar)

/-- `chord_length_parameterize` (src/bezier/fit.rs lines 212-224): cumulative
chord lengths starting at 0, then normalized by the final cumulative length. -/
noncomputable def chord_length_parameterize (points : List Pt) : List ℝ :=
  let ds := (points.zip points.tail).map fun q => fit_distance q.2 q.1
  let cum := (List.scanl (fun a d => a + d) 0 ds).take points.length
  match cum.getLast? with
  | none => []
  | some total => cum.map fun v => v / total

/-- `compute_max_error` (src/bezier/fit.rs lines 228-252): returns the
maximal squared deviation and the index of the worst point; the index starts
at `points.len() / 2` and is updated on every strict improvement. -/
noncomputable def compute_max_error (points : List Pt) (curve : BezierCurve)
    (u : List ℝ) : ℝ × ℕ :=
  ((points.zip u).enum).foldl
    (fun st q =>
      let p := curve.eval q.2.2
      let v := psub p q.2.1
      let dist := square_length v
      if st.1 < dist then (dist, q.1) else st)
    ((0 : ℝ), points.length / 2)

/-- `newton_raphson_root_find` (src/bezier/fit.rs lines 177-208).  The source
builds the derivative point lists and evaluates them through
`BezierCurve::new`/`eval`; the quadratic and linear evaluations are embedded
with the corresponding de Casteljau functions (the repository's other variant,
src/bezier/fit_old.rs lines 195-218, spells them out as
`de_casteljau3`/`de_casteljau2`). -/
noncomputable def newton_raphson_root_find (curve : BezierCurve) (point : Pt) (u : ℝ) : ℝ :=
  let q_of_u := curve.eval u
  let d1 := pscale (psub curve.p1 curve.p0) 3
  let d2 := pscale (psub curve.p2 curve.p1) 3
  let d3 := pscale (psub curve.p3 curve.p2) 3
  let e1 := pscale (psub curve.p1 curve.p0) 2
  let e2 := pscale (psub curve.p2 curve.p1) 2
  let q1_of_u := de_casteljau3 u d1 d2 d3
  let q2_of_u := de_casteljau2 u e1 e2
  let num := (q_of_u.1 - point.1) * q1_of_u.1 + (q_of_u.2 - point.2) * q1_of_u.2
  let den := q1_of_u.1 ^ 2 + q1_of_u.2 ^ 2 +
    (q_of_u.1 - point.1) * q2_of_u.1 + (q_of_u.2 - point.2) * q2_of_u.2
  u - num / den

/-- `reparameterize` (src/bezier/fit.rs lines 165-173). -/
noncomputable def reparameterize (points : List Pt) (u : List ℝ)
    (curve : BezierCurve) : List ℝ :=
  (points.zip u).map fun q => newton_raphson_root_find curve q.1 q.2

/-- `compute_left_tangent` (src/bezier/fit.rs line 256):
`(points[end + 1] - points[end]).normalize()`; out-of-bounds indexing is a
panic (`none`). -/
noncomputable def compute_left_tangent (points : List Pt) (e : ℕ) :
    Option Pt := do
  let a ← points.get? (e + 1)
  let b ← points.get? e
  pure (normalize (psub a b))

/-- `compute_right_tangent` (src/bezier/fit.rs line 261):
`(points[end - 1] - points[end]).normalize()`; the `usize` subtraction
`end - 1` panics when `end = 0`. -/
noncomputable def compute_right_tangent (points : List Pt) (e : ℕ) :
    Option Pt := do
  let i ← csub e 1
  let a ← points.get? i
  let b ← points.get? e
  pure (normalize (psub a b))

/-- `compute_center_tangent` (src/bezier/fit.rs lines 266-270):
`((points[c-1] - points[c]) + (points[c] - points[c+1])) / 2`, normalized. -/
noncomputable def compute_center_tangent (points : List Pt) (center : ℕ) :
    Option Pt := do
  let i ← csub center 1
  let a ← points.get? i
  let b ← points.get? center
  let cc ← points.get? (center + 1)
  pure (normalize (pscale (padd (psub a b) (psub b cc)) (1 / 2)))

/-- The two sub-runs passed to the recursive calls of `fit_cubic`
(src/bezier/fit.rs lines 63-66): `&points[0..midpoint - 1]` and
`&points[midpoint..points.len() - 1]`.  Both `usize` subtractions and both
slice bounds are checked; a violation is a panic (`none`). -/
def split_runs (points : List Pt) (mp : ℕ) :
    Option (List Pt × List Pt) := do
  let e1 ← csub mp 1
  let e2 ← csub points.length 1
  if e1 ≤ points.length ∧ mp ≤ e2 then
    pure (points.take e1, (points.drop mp).take (e2 - mp))
  else none

/-- The bounded reparameterization retry loop of `fit_cubic`
(src/bezier/fit.rs lines 46-57): up to `MAX_ITERATIONS = 4` rounds, each
recomputing parameters from the ORIGINAL chord parameters `u` and the current
curve; an early return fires as soon as the error drops under tolerance.
`Sum.inl` is the early-returned result, `Sum.inr` the midpoint handed to the
split (the only component of the loop state that the split reads).
If a round regenerates a non-finite curve, `compute_max_error` on it keeps
its initial state `(0.0, len/2)` (every squared distance is NaN and
`NaN > max` is false), so it is accepted exactly when `0 < error`; otherwise
every remaining round reparameterizes the NaN curve to NaN parameters and
regenerates non-finite curves, never accepting, and the loop ends with
midpoint `len/2`. -/
noncomputable def reparam_iters (points : List Pt) (u : List ℝ) (lt rt : Pt)
    (error : ℝ) :
    ℕ → BezierCurve → ℕ → Option (List GenResult ⊕ ℕ)
  | 0, _, mp => some (Sum.inr mp)
  | k + 1, curve, _ => do
    let u2 := reparameterize points u curve
    let gres ← generate_bezier points u2 lt rt
    match gres with
    | GenResult.ok curve2 =>
      let r := compute_max_error points curve2 u2
      if r.1 < error then pure (Sum.inl [GenResult.ok curve2])
      else reparam_iters points u lt rt error k curve2 r.2
    | gnf =>
      if (0 : ℝ) < error then pure (Sum.inl [gnf])
      else pure (Sum.inr (points.length / 2))

/-- `fit_cubic` (src/bezier/fit.rs lines 20-72), with a fuel argument to
bound the recursion (the callers pass more fuel than the recursion can
consume, since every sub-run is strictly shorter).  The two-point base case
indexes `points[3]` as in the source.  A slice-index panic anywhere is
`none`.
When `generate_bezier` returns a non-finite curve, `compute_max_error` on it
yields `(0.0, len/2)` (NaN distances never beat the running maximum), so the
NaN curve is accepted when `0 < error`; otherwise the accept and retry tests
(`0 < error`, then `0 < error * error` driving rounds that only regenerate
non-finite curves) leave midpoint `len/2` for the split in every case. -/
noncomputable def fit_cubic (fuel : ℕ) (points : List Pt) (lt rt : Pt)
    (error : ℝ) : Option (List GenResult) :=
  match fuel with
  | 0 => none
  | fuel + 1 =>
    if points.length = 2 then do
      let pa ← points.get? 1
      let pb ← points.get? 0
      let dist := fit_distance pa pb / 3
      let q0 ← points.get? 0
      let q3 ← points.get? 3
      pure [GenResult.ok
        ⟨q0, padd q0 (pscale lt dist), padd q3 (pscale rt dist), q3⟩]
    else do
      let u := chord_length_parameterize points
      let gres ← generate_bezier points u lt rt
      match gres with
      | GenResult.ok curve =>
        let r0 := compute_max_error points curve u
        if r0.1 < error then pure [GenResult.ok curve]
        else do
          let res ←
            if r0.1 < error * error then
              reparam_iters points u lt rt error 4 curve r0.2
            else pure (Sum.inr r0.2)
          match res with
          | Sum.inl done => pure done
          | Sum.inr mp => do
            let ct ← compute_center_tangent points mp
            let runs ← split_runs points mp
            let ls ← fit_cubic fuel runs.1 lt ct error
            let rs ← fit_cubic fuel runs.2 (pscale ct (-1)) rt error
            pure (ls ++ rs)
      | gnf =>
        if (0 : ℝ) < error then pure [gnf]
        else do
          let mp := points.length / 2
          let ct ← compute_center_tangent points mp
          let runs ← split_runs points mp
          let ls ← fit_cubic fuel runs.1 lt ct error
          let rs ← fit_cubic fuel runs.2 (pscale ct (-1)) rt error
          pure (ls ++ rs)

/-- `fit_curve` (src/bezier/fit.rs lines 14-18): the public entry point.
`compute_left_tangent(points, 0)` indexes `points[1]`, and
`points.len() - 1` is a `usize` subtraction; both panic on inputs of fewer
than 2 points. -/
noncomputable def fit_curve (points : List Pt) (error : ℝ) :
    Option (List GenResult) := do
  let lt ← compute_left_tangent points 0
  let e ← csub points.length 1
  let rt ← compute_right_tangent points e
  fit_cubic (points.length + 1) points lt rt error

/-! ## Rasterizer (src/drawing.rs) -/

/-- One step of the midpoint-circle iterator `CircleRasterizer`
(src/drawing.rs lines 47-73).  State is `(x, y, p)`.  The source returns
`None` when `self.x <= self.y` and otherwise yields `(x, y)` after updating
the state (`x` is incremented before the decision parameter is updated). -/
def circle_rasterizer_next (s : ℤ × ℤ × ℤ) : Option ((ℤ × ℤ) × (ℤ × ℤ × ℤ)) :=
  if s.1 ≤ s.2.1 then none
  else
    some ((s.1, s.2.1),
      if s.2.2 < 0 then (s.1 + 1, s.2.1, s.2.2 + 2 * (s.1 + 1) + 1)
      else (s.1 + 1, s.2.1 - 1, s.2.2 + 2 * ((s.1 + 1) - (s.2.1 - 1)) + 1))

/-- Collecting the `CircleRasterizer` iterator into a list, with fuel to
bound the unfolding. -/
def circle_collect : ℕ → (ℤ × ℤ × ℤ) → List (ℤ × ℤ)
  | 0, _ => []
  | fuel + 1, s =>
    match circle_rasterizer_next s with
    | none => []
    | some q => q.1 :: circle_collect fuel q.2

/-- The `(x, y)` pairs collected by `rasterize_circle` (src/drawing.rs lines
75-82): the iterator starts at `x = 0`, `y = radius`, `p = 1 - radius`. -/
def circle_points (radius : ℕ) (fuel : ℕ) : List (ℤ × ℤ) :=
  circle_collect fuel (0, (radius : ℤ), 1 - (radius : ℤ))

/-- The horizontal chords stamped by `rasterize_circle` (src/drawing.rs lines
83-135) for a circle centred at `(x0, y0)`: for each collected `(x, y)` pair,
four thin lines. -/
def rasterize_circle_segments (x0 y0 : ℤ) (radius : ℕ) (fuel : ℕ) :
    List ((ℤ × ℤ) × (ℤ × ℤ)) :=
  (circle_points radius fuel).flatMap fun q =>
    [((x0 - q.1, y0 + q.2), (x0 + q.1, y0 + q.2)),
     ((x0 - q.2, y0 + q.1), (x0 + q.2, y0 + q.1)),
     ((x0 - q.1, y0 - q.2), (x0 + q.1, y0 - q.2)),
     ((x0 - q.2, y0 - q.1), (x0 + q.2, y0 - q.1))]

/-- Whether a pixel is inside a `width × height` buffer (the bounds filter of
`rasterize_line_custom`, src/drawing.rs line 25). -/
def in_bounds (width height : ℤ) (q : ℤ × ℤ) : Prop :=
  0 ≤ q.1 ∧ q.1 < width ∧ 0 ≤ q.2 ∧ q.2 < height

instance (width height : ℤ) (q : ℤ × ℤ) : Decidable (in_bounds width height q) := by
  unfold in_bounds; infer_instance

/-- `rasterize_thick_line` (src/drawing.rs lines 140-144), which is also what
`Rasterizable for T: Line` uses (lines 150-155): for every in-bounds pixel of
the Bresenham walk of the segment (the walk itself comes from the external
`imageproc` crate and is taken here as an arbitrary pixel list `path`), stamp
a circle of radius `brush.width()` centred there.  The result is the list of
thin-line chords the stamps would draw. -/
def rasterize_thick_line_segments (path : List (ℤ × ℤ)) (width height : ℤ)
    (brush_width : ℕ) (fuel : ℕ) : List ((ℤ × ℤ) × (ℤ × ℤ)) :=
  (path.filter fun q => decide (in_bounds width height q)).flatMap fun q =>
    rasterize_circle_segments q.1 q.2 brush_width fuel

/-! ## Scanline polygon fill (src/polygon.rs), embedded over `ℚ` -/

/-- A 2-D point with rational coordinates, for the scanline-fill pipeline. -/
abbrev QPt := ℚ × ℚ

/-- A line segment (from, to) with rational coordinates. -/
abbrev QSeg := QPt × QPt

/-- Modelled from the spec: `intersection_parameter(segA, segB)` — the
optional scalar `t` along `segA` where the segments cross, `None` if
parallel or non-intersecting.  (The source calls
`pathfinder_geometry::LineSegment2F::intersection_t`, an external
dependency.)  `t` and the parameter `s` along `segB` solve
`A.from + t * (A.to - A.from) = B.from + s * (B.to - B.from)`. -/
def intersection_t (a b : QSeg) : Option ℚ :=
  let d1 : QPt := (a.2.1 - a.1.1, a.2.2 - a.1.2)
  let d2 : QPt := (b.2.1 - b.1.1, b.2.2 - b.1.2)
  let denom := d1.1 * d2.2 - d1.2 * d2.1
  if denom = 0 then none
  else
    let w : QPt := (b.1.1 - a.1.1, b.1.2 - a.1.2)
    let t := (w.1 * d2.2 - w.2 * d2.1) / denom
    let s := (w.1 * d1.2 - w.2 * d1.1) / denom
    if 0 ≤ t ∧ t ≤ 1 ∧ 0 ≤ s ∧ s ≤ 1 then some t else none

/-- `IntersectsAt::intersects_at` (src/geometry.rs lines 361-365): both
segments are rebuilt with `to` and `from` SWAPPED before calling
`intersection_t`, so the parameter runs from `self.to` towards `self.from`. -/
def intersects_at (a b : QSeg) : Option ℚ :=
  intersection_t (a.2, a.1) (b.2, b.1)

/-- Modelled from the spec: `sample(segment, t)` — the point at parameter `t`
along the segment (`LineSegment2F::sample`, external dependency of
src/geometry.rs): `from + t * (to - from)`. -/
def seg_sample (s : QSeg) (t : ℚ) : QPt :=
  (s.1.1 + t * (s.2.1 - s.1.1), s.1.2 + t * (s.2.2 - s.1.2))

/-- `IntersectsAt::sample_at` (src/geometry.rs lines 367-372): the segment is
rebuilt with `to` and `from` swapped before sampling. -/
def sample_at (s : QSeg) (t : ℚ) : QPt :=
  seg_sample (s.2, s.1) t

/-- The points collected for one scanline by `Polygon::fill`
(src/polygon.rs lines 182-189): each edge is paired with
`probe.intersects_at(edge)`, edges without a parameter are dropped, and each
surviving EDGE is sampled at the probe's parameter (`line.sample_at(t)` where
`line` is the first tuple component, i.e. the edge).  Order is edge-list
order; nothing is sorted. -/
def scanline_points (edges : List QSeg) (probe : QSeg) : List QPt :=
  edges.filterMap fun l => (intersects_at probe l).map fun t => sample_at l t

/-- Pairing of consecutive elements 0-1, 2-3, …, as produced by
`intersections.step_by(2).zip(intersections.skip(1).step_by(2))`
(src/polygon.rs lines 190-193); an unpaired trailing element is dropped. -/
def pair_up {α : Type} : List α → List (α × α)
  | a :: b :: rest => (a, b) :: pair_up rest
  | _ => []

/-- The spans drawn for one scanline by `Polygon::fill`
(src/polygon.rs lines 190-202). -/
def scanline_spans (edges : List QSeg) (probe : QSeg) : List (QPt × QPt) :=
  pair_up (scanline_points edges probe)

/-- Modelled from the spec: the intersection points of the horizontal probe
segment with the edges — each non-parallel crossing edge contributes the
point ON the probe at the intersection parameter. -/
def spec_intersection_points (edges : List QSeg) (probe : QSeg) : List QPt :=
  edges.filterMap fun l => (intersection_t probe l).map fun t => seg_sample probe t

/-- Modelled from the spec: sort the collected intersection points by
x-coordinate and draw spans between consecutive pairs 0-1, 2-3, …
(even-odd rule). -/
def spec_scanline_spans (edges : List QSeg) (probe : QSeg) :
    List (QPt × QPt) :=
  pair_up (List.insertionSort (fun a b : QPt => a.1 ≤ b.1)
    (spec_intersection_points edges probe))

/-! ## Theorems -/

/-- C9: for every BezierCurve, de Casteljau evaluation at parameter 0 returns
the first control point and evaluation at parameter 1 returns the fourth
control point (exactly, in the real-number embedding, hence within any
floating-point epsilon). -/
theorem eval_endpoints (c : BezierCurve) :
    c.eval 0 = c.p0 ∧ c.eval 1 = c.p3 := by
  constructor <;>
    · unfold BezierCurve.eval de_casteljau4 de_casteljau3 de_casteljau2 padd pscale
      rw [Prod.ext_iff]
      constructor <;> (simp only []; ring)

/-- C10: `Point::distance_to` computes `sqrt((ax-bx)^2 - (ay-by)^2)` — the
squared y-difference is subtracted — so whenever `|ay - by| > |ax - bx|` the
square-root argument is negative and the result is NaN (`none`), and
`Line::length`, defined through `distance_to`, behaves identically; in
particular `distance_to` is not the Euclidean distance. -/
theorem distance_to_nan (a b : Pt) (h : |a.2 - b.2| > |a.1 - b.1|) :
    distance_to a b = fsqrt ((a.1 - b.1) ^ 2 - (a.2 - b.2) ^ 2) ∧
    distance_to a b = none ∧ line_length (a, b) = none := by
  have h1 : (a.1 - b.1) ^ 2 < (a.2 - b.2) ^ 2 := by
    rw [← sq_abs (a.1 - b.1), ← sq_abs (a.2 - b.2)]
    exact pow_lt_pow_left₀ h (abs_nonneg _) (by norm_num)
  refine ⟨rfl, ?_, ?_⟩
  · unfold distance_to fsqrt
    rw [if_pos (by linarith)]
  · show (if (b.1 - a.1) ^ 2 - (b.2 - a.2) ^ 2 < 0 then none
      else some (Real.sqrt ((b.1 - a.1) ^ 2 - (b.2 - a.2) ^ 2))) = none
    rw [if_pos (by nlinarith [h1])]

/-- Witness for C10 at a = (0,0), b = (1,2). -/
theorem distance_to_nan_witness :
    |((0 : ℝ), (0 : ℝ)).2 - ((1 : ℝ), (2 : ℝ)).2| >
      |((0 : ℝ), (0 : ℝ)).1 - ((1 : ℝ), (2 : ℝ)).1| ∧
    distance_to ((0 : ℝ), (0 : ℝ)) (1, 2) = none := by
  have h : |((0 : ℝ), (0 : ℝ)).2 - ((1 : ℝ), (2 : ℝ)).2| >
      |((0 : ℝ), (0 : ℝ)).1 - ((1 : ℝ), (2 : ℝ)).1| := by
    norm_num
  exact ⟨h, (distance_to_nan ((0 : ℝ), (0 : ℝ)) (1, 2) h).2.1⟩

/-- C2: the curve-fitting entry point `fit_curve` does NOT return an empty
result on fewer than 2 points: `compute_left_tangent` indexes `points[1]`
(and `points.len() - 1` underflows on the empty slice), which is a panic
(`none` in the embedding), not an empty vector. -/
theorem fit_curve_small_input (p : Pt) (e : ℝ) :
    fit_curve ([] : List Pt) e = none ∧ fit_curve [p] e = none := by
  constructor <;> simp [fit_curve, compute_left_tangent]

/-- C1: calling the fitter on exactly two points always panics: the two-point
base case of `fit_cubic` indexes `points[3]` on the 2-element slice, so the
embedded result is `none` (never one curve from `P0` to `P1`). -/
theorem fit_curve_two_points (p0 p1 : Pt) (e : ℝ) :
    fit_curve [p0, p1] e = none := by
  simp [fit_curve, compute_left_tangent, compute_right_tangent, csub,
    fit_cubic]

/-- C5: `rasterize_thick_line` (the rasterization path used for every line
segment) draws nothing at all: the `CircleRasterizer` iterator returns `None`
whenever `x <= y`, which already holds in its initial state `x = 0`,
`y = radius`, so every circle stamp is empty — for every Bresenham pixel
path, every buffer size, every brush width and any fuel. -/
theorem thick_line_draws_nothing (path : List (ℤ × ℤ)) (width height : ℤ)
    (bw : ℕ) (fuel : ℕ) :
    rasterize_thick_line_segments path width height bw fuel = [] := by
  have hc : ∀ (r : ℕ) (f : ℕ), circle_points r f = [] := by
    intro r f
    cases f with
    | zero => rfl
    | succ f =>
      simp [circle_points, circle_collect, circle_rasterizer_next,
        Int.ofNat_nonneg]
  simp [rasterize_thick_line_segments, rasterize_circle_segments, hc]

/-- C3: the sub-runs handed to the two recursive calls of `fit_cubic`
(`&points[0..midpoint - 1]` and `&points[midpoint..points.len() - 1]`) do not
share the split point: the left run ends at `points[midpoint - 2]`, the right
run starts at `points[midpoint]`, and two input points (`points[midpoint-1]`
and the final point) are dropped entirely, so adjacent curves of a
multi-curve result meet at two distinct input points, not at a shared split
point. -/
theorem split_runs_gap (points : List Pt) (mp : ℕ) (l r : List Pt)
    (h : split_runs points mp = some (l, r)) (h2 : 2 ≤ mp)
    (h3 : mp + 2 ≤ points.length) :
    l.getLast? = points.get? (mp - 2) ∧ r.head? = points.get? mp ∧
    (l ++ r).length + 2 = points.length := by
  unfold split_runs csub at h
  rw [if_pos (by omega : 1 ≤ mp), if_pos (by omega : 1 ≤ points.length)] at h
  simp only [Option.bind_eq_bind, Option.some_bind] at h
  rw [if_pos (by constructor <;> omega)] at h
  have h' : (points.take (mp - 1),
      (points.drop mp).take (points.length - 1 - mp)) = (l, r) := by
    simpa using h
  rw [Prod.mk.injEq] at h'
  obtain ⟨hl, hr⟩ := h'
  subst hl hr
  refine ⟨?_, ?_, ?_⟩
  · rw [List.getLast?_eq_getElem?, List.length_take, List.get?_eq_getElem?,
      List.getElem?_take]
    have hm : min (mp - 1) points.length - 1 = mp - 2 := by omega
    rw [hm, if_pos (by omega)]
  · rw [List.head?_eq_getElem? _, List.get?_eq_getElem?, List.getElem?_take,
      if_pos (by omega), List.getElem?_drop]
    norm_num
  · simp only [List.length_append, List.length_take, List.length_drop]
    omega

/-- Witness for C3: splitting the 8-point run (0,0)…(7,0) at midpoint 4
passes `[(0,0),(1,0),(2,0)]` and `[(4,0),(5,0),(6,0)]` to the recursion: the
left run ends at index 2, the right starts at index 4, and two points are
dropped. -/
theorem split_runs_gap_witness :
    ([((0 : ℝ), (0 : ℝ)), (1, 0), (2, 0)] : List Pt).getLast? =
      ([((0 : ℝ), (0 : ℝ)), (1, 0), (2, 0), (3, 0), (4, 0), (5, 0), (6, 0),
        (7, 0)] : List Pt).get? 2 ∧
    ([((4 : ℝ), (0 : ℝ)), (5, 0), (6, 0)] : List Pt).head? =
      ([((0 : ℝ), (0 : ℝ)), (1, 0), (2, 0), (3, 0), (4, 0), (5, 0), (6, 0),
        (7, 0)] : List Pt).get? 4 ∧
    (([((0 : ℝ), (0 : ℝ)), (1, 0), (2, 0)] : List Pt) ++
        [((4 : ℝ), (0 : ℝ)), (5, 0), (6, 0)]).length + 2 =
      ([((0 : ℝ), (0 : ℝ)), (1, 0), (2, 0), (3, 0), (4, 0), (5, 0), (6, 0),
        (7, 0)] : List Pt).length :=
  split_runs_gap
    [((0 : ℝ), (0 : ℝ)), (1, 0), (2, 0), (3, 0), (4, 0), (5, 0), (6, 0),
      (7, 0)] 4
    [((0 : ℝ), (0 : ℝ)), (1, 0), (2, 0)]
    [((4 : ℝ), (0 : ℝ)), (5, 0), (6, 0)]
    (by simp [split_runs, csub]) (by norm_num) (by norm_num)

/-- The x-coordinate sum over a run of points sharing the x-coordinate `a`. -/
theorem sum_x_const (points : List Pt) (a : ℝ) (h : ∀ p ∈ points, p.1 = a) :
    sum_x points = points.length * a := by
  induction points with
  | nil => simp [sum_x]
  | cons q l ih =>
    have hq : q.1 = a := h q (by simp)
    have hl : ∀ p ∈ l, p.1 = a := fun p hp => h p (by simp [hp])
    simp only [sum_x, List.map_cons, List.sum_cons, List.length_cons] at *
    rw [hq, ih hl]
    push_cast
    ring

/-- The x-square sum over a run of points sharing the x-coordinate `a`. -/
theorem sum_x2_const (points : List Pt) (a : ℝ) (h : ∀ p ∈ points, p.1 = a) :
    sum_x2 points = points.length * (a * a) := by
  induction points with
  | nil => simp [sum_x2]
  | cons q l ih =>
    have hq : q.1 = a := h q (by simp)
    have hl : ∀ p ∈ l, p.1 = a := fun p hp => h p (by simp [hp])
    simp only [sum_x2, List.map_cons, List.sum_cons, List.length_cons] at *
    rw [hq, ih hl]
    push_cast
    ring

/-- C7 (amended): `Line::fit_to_points` computes the ordinary least-squares
slope and intercept formulas directly, with NO guard for the degenerate case:
whenever every input point shares the same x-coordinate the slope denominator
`n * Σx² - (Σx)²` is exactly zero, yet the function still performs the
division and produces a normal (non-panicking, non-erroring) result. -/
theorem fit_line_unguarded (points : List Pt) (a : ℝ) (h1 : points ≠ [])
    (h2 : ∀ p ∈ points, p.1 = a) :
    fit_slope_denom points = 0 ∧ fit_to_points points ≠ none := by
  constructor
  · unfold fit_slope_denom
    rw [sum_x_const points a h2, sum_x2_const points a h2]
    ring
  · cases points with
    | nil => exact absurd rfl h1
    | cons p ps => simp [fit_to_points]

/-- Witness for C7 at the two-point input (1,0), (1,1). -/
theorem fit_line_unguarded_witness :
    fit_slope_denom [((1 : ℝ), (0 : ℝ)), (1, 1)] = 0 ∧
    fit_to_points [((1 : ℝ), (0 : ℝ)), (1, 1)] ≠ none :=
  fit_line_unguarded [((1 : ℝ), (0 : ℝ)), (1, 1)] 1 (by simp)
    (by
      intro p hp
      simp only [List.mem_cons, List.mem_singleton, List.not_mem_nil] at hp
      rcases hp with h | h | h <;> first | (subst h; rfl) | exact absurd h (by simp))

/-- Counterexample for C7: on the all-same-x input [(1,0), (1,1)] the slope
denominator that `fit_to_points` divides by is exactly 0, and the function
nevertheless returns a normal result — the claimed explicit guard against
division by zero does not exist. -/
theorem fit_line_divides_by_zero :
    fit_slope_denom [((1 : ℝ), (0 : ℝ)), (1, 1)] = 0 ∧
    fit_to_points [((1 : ℝ), (0 : ℝ)), (1, 1)] ≠ none := by
  constructor
  · norm_num [fit_slope_denom, sum_x, sum_x2]
  · simp [fit_to_points]

/-- C8 (amended): the flattening segment count is the `as i32` TRUNCATION
(floor, saturated to the `i32` range) of `sqrt(bound² + 800) / 8`, not its
ceiling; it is at least 3 (hence at least 1) for every curve, and the
`Edges` iterator yields exactly that many segments (so re-flattening the same
curve trivially yields the same count). -/
theorem num_segments_spec (c : BezierCurve) :
    num_segments c =
      i32_saturate ⌊Real.sqrt (curve_length_bound c ^ 2 + 800) / 8⌋ ∧
    3 ≤ num_segments c ∧
    (edgesList c).length = (num_segments c).toNat := by
  have hx : (0 : ℝ) ≤ Real.sqrt (curve_length_bound c ^ 2 + 800) / 8 :=
    div_nonneg (Real.sqrt_nonneg _) (by norm_num)
  have heq : num_segments c =
      i32_saturate ⌊Real.sqrt (curve_length_bound c ^ 2 + 800) / 8⌋ := by
    unfold num_segments f32_as_i32
    rw [if_pos hx]
  have hlen : (edgesList c).length = (num_segments c).toNat := by
    unfold edgesList
    simp
  refine ⟨heq, ?_, hlen⟩
  have h24 : (24 : ℝ) ≤ Real.sqrt (curve_length_bound c ^ 2 + 800) := by
    have h1 : (24 : ℝ) = Real.sqrt 576 := by
      rw [show (576 : ℝ) = 24 ^ 2 by norm_num, Real.sqrt_sq (by norm_num)]
    rw [h1]
    exact Real.sqrt_le_sqrt (by nlinarith [sq_nonneg (curve_length_bound c)])
  have hfl : (3 : ℤ) ≤ ⌊Real.sqrt (curve_length_bound c ^ 2 + 800) / 8⌋ := by
    rw [Int.le_floor]
    push_cast
    linarith
  rw [heq]
  unfold i32_saturate
  have : (3 : ℤ) ≤ min (2 ^ 31 - 1) ⌊Real.sqrt (curve_length_bound c ^ 2 + 800) / 8⌋ := by
    rw [le_min_iff]
    exact ⟨by norm_num, hfl⟩
  exact le_trans this (le_max_right _ _)

/-- Counterexample for C8: for the degenerate curve with all four control
points at the origin the arc-length bound is 0; the source yields
`(sqrt(800) / 8) as i32 = 3` segments while the claimed formula
`ceil(sqrt(800) / 8)` gives 4. -/
theorem num_segments_not_ceil :
    num_segments ⟨((0 : ℝ), (0 : ℝ)), ((0 : ℝ), (0 : ℝ)), ((0 : ℝ), (0 : ℝ)),
      ((0 : ℝ), (0 : ℝ))⟩ = 3 ∧
    ⌈Real.sqrt (curve_length_bound ⟨((0 : ℝ), (0 : ℝ)), ((0 : ℝ), (0 : ℝ)),
      ((0 : ℝ), (0 : ℝ)), ((0 : ℝ), (0 : ℝ))⟩ ^ 2 + 800) / 8⌉ = 4 := by
  have hb : curve_length_bound ⟨((0 : ℝ), (0 : ℝ)), ((0 : ℝ), (0 : ℝ)),
      ((0 : ℝ), (0 : ℝ)), ((0 : ℝ), (0 : ℝ))⟩ = 0 := by
    unfold curve_length_bound distance
    norm_num
  have hlo : (24 : ℝ) < Real.sqrt 800 := by
    have h1 : (24 : ℝ) = Real.sqrt 576 := by
      rw [show (576 : ℝ) = 24 ^ 2 by norm_num, Real.sqrt_sq (by norm_num)]
    rw [h1]
    exact Real.sqrt_lt_sqrt (by norm_num) (by norm_num)
  have hhi : Real.sqrt 800 < 32 := by
    rw [show (32 : ℝ) = Real.sqrt 1024 by
      rw [show (1024 : ℝ) = 32 ^ 2 by norm_num, Real.sqrt_sq (by norm_num)]]
    exact Real.sqrt_lt_sqrt (by norm_num) (by norm_num)
  constructor
  · unfold num_segments f32_as_i32
    rw [hb]
    norm_num
    rw [if_pos (div_nonneg (Real.sqrt_nonneg _) (by norm_num))]
    have hfl : ⌊Real.sqrt 800 / 8⌋ = 3 := by
      rw [Int.floor_eq_iff]
      constructor
      · push_cast; linarith
      · push_cast; linarith
    rw [hfl]
    unfold i32_saturate
    norm_num
  · rw [hb]
    norm_num
    rw [Int.ceil_eq_iff]
    constructor
    · push_cast; linarith
    · push_cast; linarith

/-- The length of the consecutive pairing: an odd trailing element is
dropped. -/
theorem pair_up_length {α : Type} :
    ∀ l : List α, (pair_up l).length = l.length / 2
  | [] => by simp [pair_up]
  | [a] => by simp [pair_up]
  | a :: b :: rest => by
    have ih := pair_up_length rest
    simp only [pair_up, List.length_cons, ih]
    omega

/-- Flattening the consecutive pairing returns the original list with an odd
trailing element dropped: the pairs are exactly elements 0-1, 2-3, …. -/
theorem pair_up_flatten {α : Type} :
    ∀ l : List α,
      ((pair_up l).flatMap fun ab => [ab.1, ab.2]) =
        l.take (2 * (l.length / 2))
  | [] => by simp [pair_up]
  | [a] => by simp [pair_up]
  | a :: b :: rest => by
    have ih := pair_up_flatten rest
    simp only [pair_up, List.flatMap_cons, ih, List.length_cons]
    have h2 : (rest.length + 1 + 1) / 2 = rest.length / 2 + 1 := by omega
    rw [h2, show 2 * (rest.length / 2 + 1) = 2 * (rest.length / 2) + 1 + 1 by
      ring]
    simp [List.take_succ_cons]

/-- C4 (amended): on each scanline, `Polygon::fill` collects one sample point
per edge with an intersection parameter, in edge-list order (nothing is
sorted), and draws spans between consecutive pairs 0-1, 2-3, …; when the
number of collected points is odd the unpaired trailing point is dropped and
the fill continues. -/
theorem scanline_even_odd (edges : List QSeg) (probe : QSeg) :
    (scanline_spans edges probe).length =
      (scanline_points edges probe).length / 2 ∧
    ((scanline_spans edges probe).flatMap fun ab => [ab.1, ab.2]) =
      (scanline_points edges probe).take
        (2 * ((scanline_points edges probe).length / 2)) :=
  ⟨pair_up_length _, pair_up_flatten _⟩

/-- Counterexample for C4: a polygon whose four vertical edges cross the
scanline y = 0 at x = 10, 0, 5, 15 (in edge-list order).  The fill pairs the
collected points in edge order — spans (10,⅓)→(0,-1) and (5,-⅓)→(15,1) —
which differs from the claimed behaviour of sorting the probe-edge
intersection points by x and pairing 0-1, 2-3 (spans (0,0)→(5,0) and
(10,0)→(15,0)).  (The collected points are the EDGES sampled at the probe's
parameter, so they do not even lie on the scanline.) -/
theorem scanline_spans_not_sorted :
    scanline_spans
        [(((10 : ℚ), (-1 : ℚ)), ((10 : ℚ), (1 : ℚ))),
         (((0 : ℚ), (-1 : ℚ)), ((0 : ℚ), (1 : ℚ))),
         (((5 : ℚ), (-1 : ℚ)), ((5 : ℚ), (1 : ℚ))),
         (((15 : ℚ), (-1 : ℚ)), ((15 : ℚ), (1 : ℚ))),
         (((0 : ℚ), (1 : ℚ)), ((15 : ℚ), (1 : ℚ))),
         (((0 : ℚ), (-1 : ℚ)), ((15 : ℚ), (-1 : ℚ)))]
        (((0 : ℚ), (0 : ℚ)), ((15 : ℚ), (0 : ℚ))) =
      [((10, 1 / 3), (0, -1)), ((5, -1 / 3), (15, 1))] ∧
    scanline_spans
        [(((10 : ℚ), (-1 : ℚ)), ((10 : ℚ), (1 : ℚ))),
         (((0 : ℚ), (-1 : ℚ)), ((0 : ℚ), (1 : ℚ))),
         (((5 : ℚ), (-1 : ℚ)), ((5 : ℚ), (1 : ℚ))),
         (((15 : ℚ), (-1 : ℚ)), ((15 : ℚ), (1 : ℚ))),
         (((0 : ℚ), (1 : ℚ)), ((15 : ℚ), (1 : ℚ))),
         (((0 : ℚ), (-1 : ℚ)), ((15 : ℚ), (-1 : ℚ)))]
        (((0 : ℚ), (0 : ℚ)), ((15 : ℚ), (0 : ℚ))) ≠
      spec_scanline_spans
        [(((10 : ℚ), (-1 : ℚ)), ((10 : ℚ), (1 : ℚ))),
         (((0 : ℚ), (-1 : ℚ)), ((0 : ℚ), (1 : ℚ))),
         (((5 : ℚ), (-1 : ℚ)), ((5 : ℚ), (1 : ℚ))),
         (((15 : ℚ), (-1 : ℚ)), ((15 : ℚ), (1 : ℚ))),
         (((0 : ℚ), (1 : ℚ)), ((15 : ℚ), (1 : ℚ))),
         (((0 : ℚ), (-1 : ℚ)), ((15 : ℚ), (-1 : ℚ)))]
        (((0 : ℚ), (0 : ℚ)), ((15 : ℚ), (0 : ℚ))) := by
  have hA : scanline_spans
      [(((10 : ℚ), (-1 : ℚ)), ((10 : ℚ), (1 : ℚ))),
       (((0 : ℚ), (-1 : ℚ)), ((0 : ℚ), (1 : ℚ))),
       (((5 : ℚ), (-1 : ℚ)), ((5 : ℚ), (1 : ℚ))),
       (((15 : ℚ), (-1 : ℚ)), ((15 : ℚ), (1 : ℚ))),
       (((0 : ℚ), (1 : ℚ)), ((15 : ℚ), (1 : ℚ))),
       (((0 : ℚ), (-1 : ℚ)), ((15 : ℚ), (-1 : ℚ)))]
      (((0 : ℚ), (0 : ℚ)), ((15 : ℚ), (0 : ℚ))) =
      [((10, 1 / 3), (0, -1)), ((5, -1 / 3), (15, 1))] := by
    norm_num [scanline_spans, scanline_points, intersects_at, intersection_t,
      sample_at, seg_sample, pair_up, List.filterMap_cons]
  have hB : spec_scanline_spans
      [(((10 : ℚ), (-1 : ℚ)), ((10 : ℚ), (1 : ℚ))),
       (((0 : ℚ), (-1 : ℚ)), ((0 : ℚ), (1 : ℚ))),
       (((5 : ℚ), (-1 : ℚ)), ((5 : ℚ), (1 : ℚ))),
       (((15 : ℚ), (-1 : ℚ)), ((15 : ℚ), (1 : ℚ))),
       (((0 : ℚ), (1 : ℚ)), ((15 : ℚ), (1 : ℚ))),
       (((0 : ℚ), (-1 : ℚ)), ((15 : ℚ), (-1 : ℚ)))]
      (((0 : ℚ), (0 : ℚ)), ((15 : ℚ), (0 : ℚ))) =
      [((0, 0), (5, 0)), ((10, 0), (15, 0))] := by
    norm_num [spec_scanline_spans, spec_intersection_points, intersection_t,
      seg_sample, pair_up, List.filterMap_cons, List.insertionSort,
      List.orderedInsert]
  refine ⟨hA, ?_⟩
  rw [hA, hB]
  intro h
  norm_num [Prod.ext_iff] at h

/-- Factorization of the (0,0) normal-equations entry: the tangent dot
product times the Bernstein weight sum. -/
theorem c00_factor (u : List ℝ) (lt : Pt) :
    c00 u lt = (u.map fun x => b1 x * b1 x).sum * pdot lt lt := by
  induction u with
  | nil => simp [c00]
  | cons a l ih =>
    simp only [c00, List.map_cons, List.sum_cons] at ih ⊢
    rw [ih]
    unfold b1v pdot pscale
    ring

/-- Factorization of the (0,1) entry (`b2` coincides with `b1`). -/
theorem c01_factor (u : List ℝ) (lt rt : Pt) :
    c01 u lt rt = (u.map fun x => b1 x * b1 x).sum * pdot lt rt := by
  induction u with
  | nil => simp [c01]
  | cons a l ih =>
    simp only [c01, List.map_cons, List.sum_cons] at ih ⊢
    rw [ih]
    unfold b1v b2v pdot pscale b1 b2
    ring

/-- Factorization of the (1,1) entry. -/
theorem c11_factor (u : List ℝ) (rt : Pt) :
    c11 u rt = (u.map fun x => b1 x * b1 x).sum * pdot rt rt := by
  induction u with
  | nil => simp [c11]
  | cons a l ih =>
    simp only [c11, List.map_cons, List.sum_cons] at ih ⊢
    rw [ih]
    unfold b2v pdot pscale b1 b2
    ring

/-- Factorization of `x_mtrx[0]` through the weighted residual sums. -/
theorem x0_factor (points : List Pt) (u : List ℝ) (lt : Pt) (p0 pl : Pt) :
    x0 points u lt p0 pl =
      lt.1 * ((u.zip points).map fun q =>
        b1 q.1 * (gb_tmp p0 pl q.1 q.2).1).sum +
      lt.2 * ((u.zip points).map fun q =>
        b1 q.1 * (gb_tmp p0 pl q.1 q.2).2).sum := by
  unfold x0
  generalize u.zip points = L
  induction L with
  | nil => simp
  | cons a l ih =>
    simp only [List.map_cons, List.sum_cons]
    rw [ih]
    unfold b1v pdot pscale
    ring

/-- Factorization of `x_mtrx[1]` through the same weighted residual sums. -/
theorem x1_factor (points : List Pt) (u : List ℝ) (rt : Pt) (p0 pl : Pt) :
    x1 points u rt p0 pl =
      rt.1 * ((u.zip points).map fun q =>
        b1 q.1 * (gb_tmp p0 pl q.1 q.2).1).sum +
      rt.2 * ((u.zip points).map fun q =>
        b1 q.1 * (gb_tmp p0 pl q.1 q.2).2).sum := by
  unfold x1
  generalize u.zip points = L
  induction L with
  | nil => simp
  | cons a l ih =>
    simp only [List.map_cons, List.sum_cons]
    rw [ih]
    unfold b2v pdot pscale b1 b2
    ring

/-- The raw normal-equations determinant is a perfect square (Lagrange
identity in two dimensions, with `b1 = b2`). -/
theorem det_c0_c1_sq (u : List ℝ) (lt rt : Pt) :
    det_c0_c1 u lt rt =
      ((u.map fun x => b1 x * b1 x).sum * pcross lt rt) ^ 2 := by
  unfold det_c0_c1
  rw [c00_factor, c01_factor, c11_factor]
  unfold pdot pcross
  ring

/-- `det_x_c1` carries the same `B * cross(lt, rt)` factor as the
determinant. -/
theorem det_x_c1_factor (points : List Pt) (u : List ℝ) (lt rt : Pt)
    (p0 pl : Pt) :
    det_x_c1 points u lt rt p0 pl =
      ((u.map fun x => b1 x * b1 x).sum * pcross lt rt) *
        (((u.zip points).map fun q =>
            b1 q.1 * (gb_tmp p0 pl q.1 q.2).1).sum * rt.2 -
         ((u.zip points).map fun q =>
            b1 q.1 * (gb_tmp p0 pl q.1 q.2).2).sum * rt.1) := by
  unfold det_x_c1
  rw [x0_factor, x1_factor, c11_factor, c01_factor]
  unfold pdot pcross
  ring

/-- C6 (amended): whenever the 2x2 normal-equations determinant of
`generate_bezier` is exactly zero WHILE the replacement denominator
`c00 * c11` is nonzero, or either solved handle distance compares below the
`10e-6` plausibility threshold under `f32` semantics (every finite value
below the threshold, including all negative ones, and `-inf`; but not NaN or
`+inf`), the returned curve is the Wu/Barsky fallback — both inner handles
at one third of the endpoint chord length along the given tangents — and the
degeneracy is not propagated as an error. -/
theorem generate_bezier_fallback (u : List ℝ) (lt rt p0 pl : Pt)
    (rest : List Pt)
    (hlast : (p0 :: rest).getLast (List.cons_ne_nil p0 rest) = pl)
    (hdeg : (det_c0_c1 u lt rt = 0 ∧ c00 u lt * c11 u rt ≠ 0) ∨
      flt (alpha_l (p0 :: rest) u lt rt p0 pl) (10e-6 : ℝ) ∨
      flt (alpha_r (p0 :: rest) u lt rt p0 pl) (10e-6 : ℝ)) :
    generate_bezier (p0 :: rest) u lt rt =
      some (GenResult.ok (wu_barsky p0 pl lt rt)) := by
  have key : flt (alpha_l (p0 :: rest) u lt rt p0 pl) (10e-6 : ℝ) ∨
      flt (alpha_r (p0 :: rest) u lt rt p0 pl) (10e-6 : ℝ) := by
    rcases hdeg with ⟨h, hcc⟩ | h | h
    · left
      have h2 := det_c0_c1_sq u lt rt
      rw [h] at h2
      have hz : (u.map fun x => b1 x * b1 x).sum * pcross lt rt = 0 :=
        (pow_eq_zero_iff (by norm_num : 2 ≠ 0)).mp h2.symm
      have hx : det_x_c1 (p0 :: rest) u lt rt p0 pl = 0 := by
        rw [det_x_c1_factor, hz, zero_mul]
      have hd : gb_det u lt rt ≠ 0 := by
        unfold gb_det
        rw [if_pos h]
        exact mul_ne_zero hcc (by norm_num)
      unfold alpha_l fdiv
      rw [hx, if_neg hd]
      simp only [flt]
      rw [zero_div]
      norm_num
    · exact Or.inl h
    · exact Or.inr h
  simp only [generate_bezier]
  rw [hlast, if_pos key]

/-- Witness for C6: a single parameter 1/2 with parallel unit tangents makes
the determinant exactly zero while `c00 * c11 = (9/64)^2` is nonzero, and
the fitted curve for the chord (0,0)→(1,0) is the Wu/Barsky fallback. -/
theorem generate_bezier_fallback_witness :
    (det_c0_c1 [(1 : ℝ) / 2] ((1 : ℝ), (0 : ℝ)) ((1 : ℝ), (0 : ℝ)) = 0 ∧
      c00 [(1 : ℝ) / 2] ((1 : ℝ), (0 : ℝ)) *
        c11 [(1 : ℝ) / 2] ((1 : ℝ), (0 : ℝ)) ≠ 0) ∧
    generate_bezier [((0 : ℝ), (0 : ℝ)), ((1 : ℝ), (0 : ℝ))] [(1 : ℝ) / 2]
        ((1 : ℝ), (0 : ℝ)) ((1 : ℝ), (0 : ℝ)) =
      some (GenResult.ok (wu_barsky ((0 : ℝ), (0 : ℝ)) ((1 : ℝ), (0 : ℝ))
        ((1 : ℝ), (0 : ℝ)) ((1 : ℝ), (0 : ℝ)))) := by
  have hdet : det_c0_c1 [(1 : ℝ) / 2] ((1 : ℝ), (0 : ℝ))
      ((1 : ℝ), (0 : ℝ)) = 0 := by
    norm_num [det_c0_c1, c00, c01, c11, b1v, b2v, b1, b2, pdot, pscale]
  have hcc : c00 [(1 : ℝ) / 2] ((1 : ℝ), (0 : ℝ)) *
      c11 [(1 : ℝ) / 2] ((1 : ℝ), (0 : ℝ)) ≠ 0 := by
    norm_num [c00, c11, b1v, b2v, b1, b2, pdot, pscale]
  exact ⟨⟨hdet, hcc⟩,
    generate_bezier_fallback [(1 : ℝ) / 2] ((1 : ℝ), (0 : ℝ))
      ((1 : ℝ), (0 : ℝ)) ((0 : ℝ), (0 : ℝ)) ((1 : ℝ), (0 : ℝ))
      [((1 : ℝ), (0 : ℝ))] rfl (Or.inl ⟨hdet, hcc⟩)⟩

/-- Counterexample for C6 as originally stated: the run
[(0,0), (0,0), (1,0)] chord-parameterizes to u = [0, 0, 1], so every
Bernstein weight `b1(u_i)` is zero, the whole C matrix is zero, and the
determinant is zero — but so is the replacement denominator `c00 * c11`,
making both alphas `0.0 / 0.0 = NaN`.  `NaN < 10e-6` is false, so the
NON-fallback branch runs and the result is the NaN-handle curve
(`GenResult.nonFinite`), not the claimed Wu/Barsky one-third-chord
placement. -/
theorem generate_bezier_nan_escape :
    det_c0_c1 [(0 : ℝ), 0, 1] ((1 : ℝ), (0 : ℝ)) ((-1 : ℝ), (0 : ℝ)) = 0 ∧
    generate_bezier
        [((0 : ℝ), (0 : ℝ)), ((0 : ℝ), (0 : ℝ)), ((1 : ℝ), (0 : ℝ))]
        [(0 : ℝ), 0, 1] ((1 : ℝ), (0 : ℝ)) ((-1 : ℝ), (0 : ℝ)) =
      some (GenResult.nonFinite ((0 : ℝ), (0 : ℝ)) ((1 : ℝ), (0 : ℝ))
        ((1 : ℝ), (0 : ℝ)) ((-1 : ℝ), (0 : ℝ)) FVal.nan FVal.nan) ∧
    generate_bezier
        [((0 : ℝ), (0 : ℝ)), ((0 : ℝ), (0 : ℝ)), ((1 : ℝ), (0 : ℝ))]
        [(0 : ℝ), 0, 1] ((1 : ℝ), (0 : ℝ)) ((-1 : ℝ), (0 : ℝ)) ≠
      some (GenResult.ok (wu_barsky ((0 : ℝ), (0 : ℝ)) ((1 : ℝ), (0 : ℝ))
        ((1 : ℝ), (0 : ℝ)) ((-1 : ℝ), (0 : ℝ)))) := by
  have hdet : det_c0_c1 [(0 : ℝ), 0, 1] ((1 : ℝ), (0 : ℝ))
      ((-1 : ℝ), (0 : ℝ)) = 0 := by
    norm_num [det_c0_c1, c00, c01, c11, b1v, b2v, b1, b2, pdot, pscale]
  have hgen : generate_bezier
      [((0 : ℝ), (0 : ℝ)), ((0 : ℝ), (0 : ℝ)), ((1 : ℝ), (0 : ℝ))]
      [(0 : ℝ), 0, 1] ((1 : ℝ), (0 : ℝ)) ((-1 : ℝ), (0 : ℝ)) =
      some (GenResult.nonFinite ((0 : ℝ), (0 : ℝ)) ((1 : ℝ), (0 : ℝ))
        ((1 : ℝ), (0 : ℝ)) ((-1 : ℝ), (0 : ℝ)) FVal.nan FVal.nan) := by
    have hal : alpha_l
        [((0 : ℝ), (0 : ℝ)), ((0 : ℝ), (0 : ℝ)), ((1 : ℝ), (0 : ℝ))]
        [(0 : ℝ), 0, 1] ((1 : ℝ), (0 : ℝ)) ((-1 : ℝ), (0 : ℝ))
        ((0 : ℝ), (0 : ℝ)) ((1 : ℝ), (0 : ℝ)) = FVal.nan := by
      norm_num [alpha_l, fdiv, gb_det, det_c0_c1, det_x_c1, c00, c01, c11,
        x0, x1, b1v, b2v, b1, b2, gb_tmp, pdot, pscale, psub, padd]
    have har : alpha_r
        [((0 : ℝ), (0 : ℝ)), ((0 : ℝ), (0 : ℝ)), ((1 : ℝ), (0 : ℝ))]
        [(0 : ℝ), 0, 1] ((1 : ℝ), (0 : ℝ)) ((-1 : ℝ), (0 : ℝ))
        ((0 : ℝ), (0 : ℝ)) ((1 : ℝ), (0 : ℝ)) = FVal.nan := by
      norm_num [alpha_r, fdiv, gb_det, det_c0_c1, det_c0_x, c00, c01, c11,
        x0, x1, b1v, b2v, b1, b2, gb_tmp, pdot, pscale, psub, padd]
    simp only [generate_bezier, List.getLast, hal, har, flt]
    simp
  refine ⟨hdet, hgen, ?_⟩
  rw [hgen]
  simp

end Archetype
